import Mathlib

/-!
Verification development for the crewai-hack frontend workflow client.

The TypeScript sources are shallowly embedded as executable Lean
definitions:

- frontend/lib/types.ts: the SSE event union, the Iteration record and
  the WorkflowState record.
- frontend/hooks/useImageGeneration.ts: the event handler
  handleSSEEvent, the per-second countdown effect (tick) and the state
  reset performed by startGeneration (startState).
- frontend/lib/api.ts: the chunked SSE line parser of
  ImageGenerationAPI.generateImage.
- frontend/components/InputForm.tsx: the submit guard and the request
  it builds.
- The backend TextMatcher and the backend terminal-event emitter are not
  part of the sources; they are modelled from the spec (API_SCHEMA.md and
  the design document) where a claim needs them.

JavaScript strings are modelled as Lean String values where only opaque
operations are needed, and as List Char where character-level reasoning
is required (the text matcher and the SSE line splitter).  JavaScript
numbers that hold iteration counts and seconds are modelled as Nat.
-/

namespace CrewaiHack

/-! ### TextMatcher, modelled from the spec -/

/-- Modelled from the spec: helper of the backend TextMatcher, which is not
under src.  Collapses every run of whitespace into a single space
character, one step of the OCR Matching Rules of API_SCHEMA.md. -/
def collapseWs : List Char → List Char
  | [] => []
  | [c] => [if c.isWhitespace then ' ' else c]
  | c1 :: c2 :: cs =>
    if c1.isWhitespace && c2.isWhitespace then collapseWs (c2 :: cs)
    else (if c1.isWhitespace then ' ' else c1) :: collapseWs (c2 :: cs)

/-- Modelled from the spec: helper of the backend TextMatcher, which is not
under src.  Removes leading and trailing whitespace. -/
def trimWs (l : List Char) : List Char :=
  ((l.dropWhile Char.isWhitespace).reverse.dropWhile Char.isWhitespace).reverse

/-- Modelled from the spec: the normalization of the backend TextMatcher,
which is not under src.  Per the OCR Matching Rules of API_SCHEMA.md and
section 4.1 of the design: lowercase, collapse whitespace runs, trim. -/
def normalizeText (l : List Char) : List Char :=
  trimWs (collapseWs (l.map Char.toLower))

/-- Modelled from the spec: the backend TextMatcher itself, which is not
under src.  It compares the two normalized strings for exact equality. -/
def matchesText (recognized intended : List Char) : Bool :=
  normalizeText recognized == normalizeText intended

/-! ### SSE event types, from frontend/lib/types.ts -/

/-- The closed SSE event union of frontend/lib/types.ts.  Every variant
carries the timestamp of BaseSSEEvent plus exactly the fields its
interface declares; optional fields are Option values. -/
inductive SSEEvent where
  | text_extraction (extracted_text : Option String) (has_intended_text : Bool)
      (timestamp : String)
  | iteration_start (iteration : Nat) (prompt : String) (timestamp : String)
  | image_generated (iteration : Nat) (image_url : String) (timestamp : String)
  | analysis (iteration : Nat) (ocr_result : String) (match_status : Bool)
      (message : String) (timestamp : String)
  | workflow_complete (success : Bool) (final_image_url : Option String)
      (ocr_text : Option String) (total_iterations : Nat) (timestamp : String)
  | workflow_timeout (total_iterations : Nat) (last_image_url : Option String)
      (timestamp : String)
  | workflow_error (error_message : String) (iteration : Option Nat)
      (timestamp : String)
  | stream_end (timestamp : String)
deriving DecidableEq

/-- The discriminant string of an event, the type field of types.ts. -/
def eventTypeTag : SSEEvent → String
  | .text_extraction .. => "text_extraction"
  | .iteration_start .. => "iteration_start"
  | .image_generated .. => "image_generated"
  | .analysis .. => "analysis"
  | .workflow_complete .. => "workflow_complete"
  | .workflow_timeout .. => "workflow_timeout"
  | .workflow_error .. => "workflow_error"
  | .stream_end .. => "stream_end"

/-- The eight members of the SSEEventType union of frontend/lib/types.ts,
in declaration order. -/
def sseEventTypeTags : List String :=
  ["text_extraction", "iteration_start", "image_generated", "analysis",
   "workflow_complete", "workflow_timeout", "workflow_error", "stream_end"]

/-- The timestamp every event carries through BaseSSEEvent. -/
def eventTimestamp : SSEEvent → String
  | .text_extraction _ _ ts => ts
  | .iteration_start _ _ ts => ts
  | .image_generated _ _ ts => ts
  | .analysis _ _ _ _ ts => ts
  | .workflow_complete _ _ _ _ ts => ts
  | .workflow_timeout _ _ ts => ts
  | .workflow_error _ _ ts => ts
  | .stream_end ts => ts

/-- The Iteration record of frontend/lib/types.ts; optional fields are
Option values, absent means none. -/
structure Iteration where
  id : Nat
  imageUrl : Option String := none
  extractedText : Option String := none
  isMatch : Option Bool := none
  feedback : Option String := none
  prompt : Option String := none
  timestamp : String
deriving DecidableEq

/-- The finalResult record nested in WorkflowState in types.ts. -/
structure FinalResult where
  success : Bool
  final_image_url : Option String
  ocr_text : Option String
  total_iterations : Nat
deriving DecidableEq

/-- The WorkflowState record of frontend/lib/types.ts. -/
structure WorkflowState where
  isGenerating : Bool
  iterations : List Iteration
  currentImage : Option String := none
  isComplete : Bool
  timeRemaining : Nat
  error : Option String := none
  extractedText : Option String := none
  finalResult : Option FinalResult := none
deriving DecidableEq

/-- The GenerateRequest interface of frontend/lib/types.ts. -/
structure GenerateRequest where
  prompt : String
deriving DecidableEq

/-- The field names declared by the GenerateRequest interface in
frontend/lib/types.ts, lines 1 to 3: it declares exactly one field. -/
def generateRequestFields : List String := ["prompt"]

/-! ### The event handler, from frontend/hooks/useImageGeneration.ts -/

/-- The TIMEOUT_DURATION constant of useImageGeneration.ts: 300 seconds. -/
def TIMEOUT_DURATION : Nat := 300

/-- JavaScript truthiness of an optional string: undefined and the empty
string are falsy. -/
def optTruthy : Option String → Bool
  | none => false
  | some s => s != ""

/-- Image URL resolution used throughout the handler: keep absolute URLs,
prefix relative ones with API_URL. -/
def resolveImageUrl (apiUrl url : String) : String :=
  if url.startsWith "http" then url else apiUrl ++ url

/-- Updates the first list element satisfying the test, the way the JS
handler mutates the object returned by Array.prototype.find. -/
def updateFirst (p : α → Bool) (f : α → α) : List α → List α
  | [] => []
  | a :: as => if p a then f a :: as else a :: updateFirst p f as

/-- The handleSSEEvent switch of useImageGeneration.ts, as a pure state
transformer.  The JS code first takes a structural copy of the previous
state, so cases that do not assign anything return a state equal to the
previous one. -/
def handleSSEEvent (apiUrl : String) (prev : WorkflowState) (event : SSEEvent) :
    WorkflowState :=
  match event with
  | .text_extraction _ _ _ => prev
  | .iteration_start i p ts =>
    match prev.iterations.find? (fun it => it.id == i) with
    | none =>
      { prev with iterations :=
          prev.iterations ++ [{ id := i, timestamp := ts, prompt := some p }] }
    | some _ =>
      { prev with iterations :=
          (updateFirst (fun it => it.id == i)
            (fun it => if optTruthy it.prompt then it else { it with prompt := some p })
            prev.iterations) }
  | .image_generated i url _ =>
    match prev.iterations.find? (fun it => it.id == i) with
    | none => prev
    | some _ =>
      let fullImageUrl := resolveImageUrl apiUrl url
      { prev with
          iterations :=
            (updateFirst (fun it => it.id == i)
              (fun it => { it with imageUrl := some fullImageUrl }) prev.iterations),
          currentImage := some fullImageUrl }
  | .analysis i ocr m msg ts =>
    match prev.iterations.find? (fun it => it.id == i) with
    | none =>
      { prev with iterations :=
          prev.iterations ++
            [{ id := i, timestamp := ts, extractedText := some ocr,
               isMatch := some m, feedback := some msg }] }
    | some _ =>
      { prev with iterations :=
          (updateFirst (fun it => it.id == i)
            (fun it =>
              { it with extractedText := some ocr, isMatch := some m,
                        feedback := some msg })
            prev.iterations) }
  | .workflow_complete success fin ocr total _ =>
    let finalImageUrl : Option String :=
      match fin with
      | some u => if u == "" then none else some (resolveImageUrl apiUrl u)
      | none => none
    let s1 :=
      { prev with
          isGenerating := false, isComplete := true,
          finalResult := some
            { success := success, final_image_url := finalImageUrl,
              ocr_text := ocr, total_iterations := total } }
    if optTruthy finalImageUrl then { s1 with currentImage := finalImageUrl } else s1
  | .workflow_timeout total lastUrl _ =>
    let s1 :=
      { prev with
          isGenerating := false, isComplete := true,
          error := some ("Workflow timed out after " ++ toString total ++
            " iterations") }
    match lastUrl with
    | some u =>
      if u == "" then s1
      else { s1 with currentImage := some (resolveImageUrl apiUrl u) }
    | none => s1
  | .workflow_error msg _ _ =>
    { prev with isGenerating := false, isComplete := true, error := some msg }
  | .stream_end _ => prev

/-- Folding the handler over a list of received events. -/
def processEvents (apiUrl : String) (s : WorkflowState) (events : List SSEEvent) :
    WorkflowState :=
  events.foldl (handleSSEEvent apiUrl) s

/-- The state installed by startGeneration before the stream is consumed:
generating, no iterations, full 300 second budget. -/
def startState : WorkflowState :=
  { isGenerating := true, iterations := [], isComplete := false,
    timeRemaining := TIMEOUT_DURATION, error := none, currentImage := none,
    extractedText := none, finalResult := none }

/-- One firing of the countdown effect of useImageGeneration.ts: armed only
while generating with time remaining; at one second left it resolves the
run to the timed-out error state, otherwise it decrements. -/
def tick (s : WorkflowState) : WorkflowState :=
  if s.isGenerating = true ∧ 0 < s.timeRemaining then
    if s.timeRemaining ≤ 1 then
      { s with isGenerating := false, isComplete := true, timeRemaining := 0,
               error := some "Workflow timed out after 5 minutes" }
    else { s with timeRemaining := s.timeRemaining - 1 }
  else s

/-- n firings of the countdown effect. -/
def ticks : Nat → WorkflowState → WorkflowState
  | 0, s => s
  | n + 1, s => tick (ticks n s)

/-- The three terminal event kinds of the stream contract. -/
def isTerminalEvent : SSEEvent → Bool
  | .workflow_complete .. => true
  | .workflow_timeout .. => true
  | .workflow_error .. => true
  | _ => false

/-- Modelled from the spec: the backend report of budget exhaustion, which
is not under src.  Per the error taxonomy, exhaustion of the iteration cap
or of the deadline is reported as a workflow_timeout event carrying the
total iteration count and the best-effort last image, if any. -/
def budgetExhaustionReport (total : Nat) (lastImage : Option String)
    (ts : String) : SSEEvent :=
  .workflow_timeout total lastImage ts

/-- The last_image_url field of a workflow_timeout event. -/
def timeoutLastImage : SSEEvent → Option String
  | .workflow_timeout _ l _ => l
  | _ => none

/-- The iteration ids recorded in a state, in list order. -/
def stateIterationIds (s : WorkflowState) : List Nat :=
  s.iterations.map Iteration.id

/-- The iteration indices announced by a stream, in order: indices of
iteration_start and analysis events, the only events that can create an
iteration entry in the handler. -/
def iterationIndices : List SSEEvent → List Nat :=
  List.filterMap fun e =>
    match e with
    | .iteration_start i _ _ => some i
    | .analysis i _ _ _ _ => some i
    | _ => none

/-- Keeps the first occurrence of each number not already seen. -/
def dedupKeepFirst : List Nat → List Nat → List Nat
  | _, [] => []
  | seen, i :: is =>
    if i ∈ seen then dedupKeepFirst seen is
    else i :: dedupKeepFirst (i :: seen) is

/-! ### InputForm, from the prompt-only InputForm component -/

/-- The behaviour of JavaScript String.prototype.trim, at the character
level: drop leading and trailing whitespace. -/
def jsTrim (s : String) : String := ⟨trimWs s.toList⟩

namespace InputForm

/-- The isFormValid guard of the InputForm component: the prompt must be
non-empty after trimming. -/
def isFormValid (prompt : String) : Bool := jsTrim prompt != ""

/-- The handleSubmit function of the InputForm component: submit only when
the trimmed prompt is non-empty, and send exactly the trimmed prompt. -/
def handleSubmit (prompt : String) : Option GenerateRequest :=
  if jsTrim prompt != "" then some { prompt := jsTrim prompt } else none

end InputForm

/-! ### The SSE line parser, from frontend/lib/api.ts -/

namespace ImageGenerationAPI

/-- The behaviour of JavaScript String.prototype.split with separator
newline, on strings modelled as char lists: always returns a non-empty
list of segments. -/
def splitNl : List Char → List (List Char)
  | [] => [[]]
  | c :: cs =>
    let rest := splitNl cs
    if c = '\n' then [] :: rest
    else (c :: rest.headD []) :: rest.tail

/-- The six characters of the SSE data line marker. -/
def dataMarker : List Char := "data: ".toList

/-- Handling of one complete line: lines starting with the data marker
have their payload after the first six characters parsed; parse failures
and other lines yield nothing.  The JSON parser is a parameter. -/
def handleLine (parse : List Char → Option α) (l : List Char) : Option α :=
  if dataMarker.isPrefixOf l then parse (l.drop 6) else none

/-- One pass of the reader loop body: append the chunk to the buffer,
split on newlines, keep the trailing segment as the new buffer, and emit
the parsed payloads of the complete lines. -/
def feedChunk (parse : List Char → Option α) (st : List Char × List α)
    (chunk : List Char) : List Char × List α :=
  let parts := splitNl (st.1 ++ chunk)
  (parts.getLastD [], st.2 ++ parts.dropLast.filterMap (handleLine parse))

/-- The generateImage async generator of api.ts, as the list of events it
yields for a list of decoded chunks; the buffer left over when the stream
ends is discarded. -/
def generateImage (parse : List Char → Option α) (chunks : List (List Char)) :
    List α :=
  (chunks.foldl (feedChunk parse) ([], [])).2

/-- Refinement target following the claim wording: the successfully parsed
payloads of the complete lines of the whole stream that begin with the
data marker, in stream order. -/
def specDataEvents (parse : List Char → Option α) (s : List Char) : List α :=
  (splitNl s).dropLast.filterMap (handleLine parse)

end ImageGenerationAPI

/-- The event sequence documented by API_SCHEMA.md for the error path in
which intent extraction finds no intended text: iteration_start for
iteration 1 is emitted first, then the null text_extraction, then
workflow_error, then stream_end. -/
def errorPathEvents (p m t1 t2 t3 t4 : String) : List SSEEvent :=
  [SSEEvent.iteration_start 1 p t1,
   SSEEvent.text_extraction none false t2,
   SSEEvent.workflow_error m (some 1) t3,
   SSEEvent.stream_end t4]

/-! ## Claim theorems -/

/-- C2 (amended): matchesText returns true exactly when the two inputs are
equal after lowercasing, collapsing whitespace runs and trimming; two empty
strings match, case and extra whitespace are ignored, inserting a space
changes the comparison, and the empty string matches exactly the strings
that normalize to the empty string. -/
theorem matchesText_iff_normalized_eq :
    (∀ r i : List Char, matchesText r i = true ↔ normalizeText r = normalizeText i)
    ∧ matchesText [] [] = true
    ∧ matchesText "Hackathon   2025".toList "hackathon 2025".toList = true
    ∧ matchesText "Hackathon2025".toList "Hackathon 2025".toList = false
    ∧ matchesText [] ['a'] = false
    ∧ (∀ s : List Char, matchesText [] s = true ↔ normalizeText s = []) := by
  have hiff : ∀ r i : List Char,
      matchesText r i = true ↔ normalizeText r = normalizeText i := by
    intro r i
    simp [matchesText]
  refine ⟨hiff, by decide, by decide, by decide, by decide, fun s => ?_⟩
  rw [hiff [] s]
  constructor
  · intro h; exact h.symm
  · intro h; exact h.symm

/-- C2 counterexample: the empty string matches the non-empty single-space
string, because whitespace-only strings normalize to the empty string; this
refutes the clause that an empty string never matches a non-empty one. -/
theorem matchesText_empty_matches_space :
    matchesText [] [' '] = true ∧ ([' '] : List Char) ≠ ([] : List Char) := by
  decide

/-- C2 witness: the characterization applied at a concrete input pair. -/
theorem matchesText_iff_normalized_eq_witness :
    matchesText ['a'] ['A'] = true ↔ normalizeText ['a'] = normalizeText ['A'] :=
  matchesText_iff_normalized_eq.1 ['a'] ['A']

/-- C4 (amended): the event stream type is a closed union of exactly eight
kinds; every event carries its timestamp; the intent-extraction event is
named text_extraction and carries extracted_text and has_intended_text; the
analysis event carries iteration, ocr_result, match_status and message. -/
theorem sseEvent_closed_union_of_eight_kinds :
    sseEventTypeTags.length = 8 ∧ sseEventTypeTags.Nodup
    ∧ (∀ e : SSEEvent, eventTypeTag e ∈ sseEventTypeTags)
    ∧ (∀ et h ts, eventTypeTag (SSEEvent.text_extraction et h ts) = "text_extraction"
        ∧ eventTimestamp (SSEEvent.text_extraction et h ts) = ts)
    ∧ (∀ i ocr m msg ts, eventTypeTag (SSEEvent.analysis i ocr m msg ts) = "analysis"
        ∧ eventTimestamp (SSEEvent.analysis i ocr m msg ts) = ts) := by
  refine ⟨by decide, by decide, fun e => ?_, fun _ _ _ => ⟨rfl, rfl⟩,
    fun _ _ _ _ _ => ⟨rfl, rfl⟩⟩
  cases e <;> simp [eventTypeTag, sseEventTypeTags]

/-- C4 counterexample: no event kind of the union is named intent_extracted;
the intent-extraction event kind is named text_extraction. -/
theorem sseEvent_no_intent_extracted_kind :
    "intent_extracted" ∉ sseEventTypeTags
    ∧ "text_extraction" ∈ sseEventTypeTags
    ∧ eventTypeTag (SSEEvent.text_extraction (some "x") true "t")
        ≠ "intent_extracted" := by
  decide

/-- C4 witness: membership of a concrete tag in the closed tag list. -/
theorem sseEvent_closed_union_witness :
    eventTypeTag (SSEEvent.stream_end "t") ∈ sseEventTypeTags :=
  sseEvent_closed_union_of_eight_kinds.2.2.1 (SSEEvent.stream_end "t")

/-- C7 (amended): the client submits a request exactly when the trimmed
prompt is non-empty, and the submitted request holds the trimmed, non-empty
prompt; the GenerateRequest interface declares only the prompt field. -/
theorem inputForm_submits_trimmed_nonempty_prompt :
    (∀ p r, InputForm.handleSubmit p = some r → r.prompt = jsTrim p ∧ r.prompt ≠ "")
    ∧ (∀ p, InputForm.isFormValid p = true ↔ jsTrim p ≠ "")
    ∧ generateRequestFields = ["prompt"] := by
  refine ⟨fun p r h => ?_, fun p => ?_, rfl⟩
  · unfold InputForm.handleSubmit at h
    by_cases hc : (jsTrim p != "") = true
    · rw [if_pos hc] at h
      cases h
      refine ⟨rfl, ?_⟩
      simpa [bne_iff_ne] using hc
    · rw [if_neg hc] at h
      cases h
  · simp [InputForm.isFormValid]

/-- C7 counterexample: the GenerateRequest interface has no intended_text
field; the request consists of the prompt alone. -/
theorem generateRequest_has_no_intended_text_field :
    "intended_text" ∉ generateRequestFields ∧ generateRequestFields = ["prompt"] := by
  decide

/-- C7 witness: submitting a padded prompt at a concrete input. -/
theorem inputForm_submits_trimmed_nonempty_prompt_witness :
    ({ prompt := "hi" } : GenerateRequest).prompt = jsTrim " hi "
    ∧ ({ prompt := "hi" } : GenerateRequest).prompt ≠ "" :=
  inputForm_submits_trimmed_nonempty_prompt.1 " hi " { prompt := "hi" } (by decide)

/-- C8: budget exhaustion is reported by a workflow_timeout event, not a
workflow_error event, carrying the last image if any, and the handler sets
the current image to the resolved last image reference of a timeout event
while resolving the run to a completed timeout state. -/
theorem budget_exhaustion_reported_as_timeout :
    ∀ (apiUrl : String) (s : WorkflowState) (total : Nat) (u ts : String),
      eventTypeTag (budgetExhaustionReport total (some u) ts) = "workflow_timeout"
      ∧ eventTypeTag (budgetExhaustionReport total (some u) ts) ≠ "workflow_error"
      ∧ isTerminalEvent (budgetExhaustionReport total (some u) ts) = true
      ∧ timeoutLastImage (budgetExhaustionReport total (some u) ts) = some u
      ∧ (u ≠ "" →
          (handleSSEEvent apiUrl s (budgetExhaustionReport total (some u) ts)).currentImage
            = some (resolveImageUrl apiUrl u))
      ∧ (handleSSEEvent apiUrl s (budgetExhaustionReport total (some u) ts)).isComplete
          = true
      ∧ (handleSSEEvent apiUrl s (budgetExhaustionReport total (some u) ts)).error
          = some ("Workflow timed out after " ++ toString total ++ " iterations") := by
  intro apiUrl s total u ts
  refine ⟨rfl, fun h => (by decide : ("workflow_timeout" : String) ≠ "workflow_error") h,
    rfl, rfl, fun hu => ?_, ?_, ?_⟩
  · simp [handleSSEEvent, budgetExhaustionReport, hu]
  · simp only [handleSSEEvent, budgetExhaustionReport]
    split <;> rfl
  · simp only [handleSSEEvent, budgetExhaustionReport]
    split <;> rfl

/-- C8 witness: a concrete timeout event carrying a relative image URL. -/
theorem budget_exhaustion_reported_as_timeout_witness :
    (handleSSEEvent "http://localhost:8000" startState
        (budgetExhaustionReport 8 (some "/api/images/last456.png") "t")).currentImage
      = some (resolveImageUrl "http://localhost:8000" "/api/images/last456.png") :=
  (budget_exhaustion_reported_as_timeout "http://localhost:8000" startState 8
    "/api/images/last456.png" "t").2.2.2.2.1 (by decide)

/-- C10: an image_generated event whose iteration has no entry leaves the
state unchanged, while an analysis event for a missing iteration appends a
new entry holding the OCR result, the match status and the feedback. -/
theorem orphan_image_dropped_orphan_analysis_appended :
    ∀ (apiUrl : String) (s : WorkflowState) (i : Nat) (url ocr msg ts : String)
      (m : Bool),
      s.iterations.find? (fun it => it.id == i) = none →
        handleSSEEvent apiUrl s (SSEEvent.image_generated i url ts) = s
        ∧ handleSSEEvent apiUrl s (SSEEvent.analysis i ocr m msg ts)
            = { s with iterations :=
                  (s.iterations ++
                    [{ id := i, timestamp := ts, extractedText := some ocr,
                       isMatch := some m, feedback := some msg }]) } := by
  intro apiUrl s i url ocr msg ts m h
  constructor
  · simp [handleSSEEvent, h]
  · simp [handleSSEEvent, h]

/-- C10 witness: both behaviours at a concrete orphan iteration index. -/
theorem orphan_image_dropped_orphan_analysis_appended_witness :
    handleSSEEvent "u" startState (SSEEvent.image_generated 3 "img" "t") = startState
    ∧ handleSSEEvent "u" startState (SSEEvent.analysis 3 "o" true "m" "t")
        = { startState with iterations :=
              (startState.iterations ++
                [{ id := 3, timestamp := "t", extractedText := some "o",
                   isMatch := some true, feedback := some "m" }]) } :=
  orphan_image_dropped_orphan_analysis_appended "u" startState 3 "img" "o" "m" "t"
    true (by decide)

/-- C6 (amended): on the documented no-intended-text error path the run
resolves to the workflow_error message with no iteration completed: the
single recorded entry for iteration 1 has no image, no OCR result and no
match status, but one entry is recorded because iteration_start for
iteration 1 precedes the extraction result. -/
theorem no_intended_text_error_path :
    ∀ (apiUrl p m t1 t2 t3 t4 : String),
      (processEvents apiUrl startState (errorPathEvents p m t1 t2 t3 t4)).error = some m
      ∧ (processEvents apiUrl startState (errorPathEvents p m t1 t2 t3 t4)).isComplete
          = true
      ∧ (processEvents apiUrl startState (errorPathEvents p m t1 t2 t3 t4)).isGenerating
          = false
      ∧ (processEvents apiUrl startState (errorPathEvents p m t1 t2 t3 t4)).iterations
          = [{ id := 1, timestamp := t1, prompt := some p }]
      ∧ (∀ it ∈ (processEvents apiUrl startState
            (errorPathEvents p m t1 t2 t3 t4)).iterations,
          it.imageUrl = none ∧ it.extractedText = none ∧ it.isMatch = none) := by
  intro apiUrl p m t1 t2 t3 t4
  refine ⟨rfl, rfl, rfl, rfl, ?_⟩
  intro it hit
  have hiter : (processEvents apiUrl startState
        (errorPathEvents p m t1 t2 t3 t4)).iterations
      = [{ id := 1, timestamp := t1, prompt := some p }] := rfl
  rw [hiter] at hit
  rcases List.mem_singleton.1 hit with rfl
  exact ⟨rfl, rfl, rfl⟩

/-- C6 counterexample: the documented error path records one iteration
entry, not zero, refuting the zero-iterations-recorded clause. -/
theorem error_path_records_one_iteration :
    (processEvents "http://localhost:8000" startState
        (errorPathEvents "A beautiful sunset over mountains"
          "No intended text detected in prompt." "t1" "t2" "t3" "t4")).iterations.length
      = 1
    ∧ (processEvents "http://localhost:8000" startState
        (errorPathEvents "A beautiful sunset over mountains"
          "No intended text detected in prompt." "t1" "t2" "t3" "t4")).iterations
      ≠ [] := by
  decide

/-- C6 witness: the no-completed-iteration clause at the concrete entry. -/
theorem no_intended_text_error_path_witness :
    ({ id := 1, timestamp := "t1", prompt := some "sunset" } : Iteration).imageUrl = none
    ∧ ({ id := 1, timestamp := "t1", prompt := some "sunset" } : Iteration).extractedText
        = none
    ∧ ({ id := 1, timestamp := "t1", prompt := some "sunset" } : Iteration).isMatch
        = none :=
  (no_intended_text_error_path "u" "sunset" "msg" "t1" "t2" "t3" "t4").2.2.2.2
    { id := 1, timestamp := "t1", prompt := some "sunset" } (by decide)

/-- C1 (amended): processing any terminal event always marks the state
complete and not generating, and re-processing the same terminal event is a
no-op; the handler has no terminal-state guard, so a different terminal
event arriving later can still change the state (see the counterexample),
and a single observable terminal outcome relies on the stream delivering at
most one terminal event. -/
theorem terminal_event_completes_and_is_idempotent :
    ∀ (apiUrl : String) (s : WorkflowState) (e : SSEEvent), isTerminalEvent e = true →
      (handleSSEEvent apiUrl s e).isComplete = true
      ∧ (handleSSEEvent apiUrl s e).isGenerating = false
      ∧ handleSSEEvent apiUrl (handleSSEEvent apiUrl s e) e = handleSSEEvent apiUrl s e := by
  intro apiUrl s e he
  cases e with
  | workflow_complete success fin ocr total ts =>
    refine ⟨?_, ?_, ?_⟩ <;> simp only [handleSSEEvent] <;> split <;> simp_all
  | workflow_timeout total lastUrl ts =>
    refine ⟨?_, ?_, ?_⟩ <;> simp only [handleSSEEvent] <;>
      cases lastUrl <;> simp_all <;> split <;> simp_all
  | workflow_error msg i ts => exact ⟨rfl, rfl, rfl⟩
  | text_extraction a b c => simp [isTerminalEvent] at he
  | iteration_start a b c => simp [isTerminalEvent] at he
  | image_generated a b c => simp [isTerminalEvent] at he
  | analysis a b c d f => simp [isTerminalEvent] at he
  | stream_end a => simp [isTerminalEvent] at he

/-- C1 counterexample: after a workflow_complete event has entered the
terminal state, a workflow_error event still changes the state visibly, by
overwriting the error message. -/
theorem second_terminal_event_changes_state :
    handleSSEEvent "http://localhost:8000"
        (handleSSEEvent "http://localhost:8000" startState
          (SSEEvent.workflow_complete true none none 1 "t1"))
        (SSEEvent.workflow_error "boom" none "t2")
      ≠ handleSSEEvent "http://localhost:8000" startState
          (SSEEvent.workflow_complete true none none 1 "t1") := by
  decide

/-- C1 witness: a concrete terminal event applied twice. -/
theorem terminal_event_completes_and_is_idempotent_witness :
    (handleSSEEvent "u" startState (SSEEvent.workflow_error "e" none "t")).isComplete
      = true
    ∧ (handleSSEEvent "u" startState (SSEEvent.workflow_error "e" none "t")).isGenerating
      = false
    ∧ handleSSEEvent "u"
        (handleSSEEvent "u" startState (SSEEvent.workflow_error "e" none "t"))
        (SSEEvent.workflow_error "e" none "t")
      = handleSSEEvent "u" startState (SSEEvent.workflow_error "e" none "t") :=
  terminal_event_completes_and_is_idempotent "u" startState
    (SSEEvent.workflow_error "e" none "t") (by decide)

theorem ticks_startState_countdown :
    ∀ n, n < TIMEOUT_DURATION →
      ticks n startState = { startState with timeRemaining := TIMEOUT_DURATION - n } := by
  intro n
  induction n with
  | zero => intro _; rfl
  | succ k ih =>
    intro h
    have hk : k < TIMEOUT_DURATION := Nat.lt_of_succ_lt h
    have h2 : 1 < TIMEOUT_DURATION - k := by
      simp only [TIMEOUT_DURATION] at h ⊢
      omega
    show tick (ticks k startState) = _
    rw [ih hk]
    have hgen : ({ startState with timeRemaining := TIMEOUT_DURATION - k } :
        WorkflowState).isGenerating = true := rfl
    have htr : ({ startState with timeRemaining := TIMEOUT_DURATION - k } :
        WorkflowState).timeRemaining = TIMEOUT_DURATION - k := rfl
    unfold tick
    rw [hgen, htr]
    rw [if_pos ⟨rfl, by omega⟩]
    rw [if_neg (by omega)]
    have h3 : TIMEOUT_DURATION - k - 1 = TIMEOUT_DURATION - (k + 1) := by omega
    rw [h3]
    rfl

theorem ticks_full_duration :
    ticks TIMEOUT_DURATION startState
      = { startState with
            isGenerating := false, isComplete := true, timeRemaining := 0,
            error := some "Workflow timed out after 5 minutes" } := by
  show tick (ticks 299 startState) = _
  rw [ticks_startState_countdown 299 (by decide)]
  decide

/-- C3 (amended): the run budget is the single fixed constant of 300
seconds, installed once when the run starts; no stream event ever changes
the remaining time; the countdown stays un-expired strictly before 300
ticks and resolves the run to the timed-out error state exactly at 300
ticks.  The handler keeps applying events after expiry, so a result
arriving after the deadline is not discarded (see the counterexample). -/
theorem run_deadline_fixed_300_seconds :
    TIMEOUT_DURATION = 300
    ∧ startState.timeRemaining = TIMEOUT_DURATION
    ∧ (∀ (apiUrl : String) (s : WorkflowState) (e : SSEEvent),
        (handleSSEEvent apiUrl s e).timeRemaining = s.timeRemaining)
    ∧ (∀ n, n < TIMEOUT_DURATION → (ticks n startState).isComplete = false
        ∧ (ticks n startState).timeRemaining = TIMEOUT_DURATION - n)
    ∧ (ticks TIMEOUT_DURATION startState).isComplete = true
    ∧ (ticks TIMEOUT_DURATION startState).isGenerating = false
    ∧ (ticks TIMEOUT_DURATION startState).error
        = some "Workflow timed out after 5 minutes" := by
  refine ⟨rfl, rfl, ?_, ?_, ?_, ?_, ?_⟩
  · intro apiUrl s e
    cases e with
    | text_extraction a b c => rfl
    | iteration_start i p ts =>
      simp only [handleSSEEvent]
      cases s.iterations.find? (fun it => it.id == i) <;> rfl
    | image_generated i url ts =>
      simp only [handleSSEEvent]
      cases s.iterations.find? (fun it => it.id == i) <;> rfl
    | analysis i ocr m msg ts =>
      simp only [handleSSEEvent]
      cases s.iterations.find? (fun it => it.id == i) <;> rfl
    | workflow_complete a fin c d ts =>
      simp only [handleSSEEvent]
      split <;> rfl
    | workflow_timeout total lastUrl ts =>
      simp only [handleSSEEvent]
      cases lastUrl with
      | none => rfl
      | some u =>
        simp only []
        split <;> rfl
    | workflow_error m i ts => rfl
    | stream_end ts => rfl
  · intro n h
    rw [ticks_startState_countdown n h]
    exact ⟨rfl, rfl⟩
  · rw [ticks_full_duration]
  · rw [ticks_full_duration]
  · rw [ticks_full_duration]

set_option maxRecDepth 4000 in
/-- C3 counterexample: after the deadline has expired the handler still
applies an arriving analysis event, visibly changing the state by appending
an iteration entry. -/
theorem event_after_deadline_changes_state :
    (ticks TIMEOUT_DURATION startState).isComplete = true
    ∧ (ticks TIMEOUT_DURATION startState).iterations.length = 0
    ∧ (handleSSEEvent "http://localhost:8000" (ticks TIMEOUT_DURATION startState)
        (SSEEvent.analysis 1 "x" false "f" "t")).iterations.length = 1
    ∧ handleSSEEvent "http://localhost:8000" (ticks TIMEOUT_DURATION startState)
        (SSEEvent.analysis 1 "x" false "f" "t")
      ≠ ticks TIMEOUT_DURATION startState := by
  decide

/-- C3 witness: the countdown one tick before expiry. -/
theorem run_deadline_fixed_300_seconds_witness :
    (ticks 299 startState).isComplete = false
    ∧ (ticks 299 startState).timeRemaining = TIMEOUT_DURATION - 299 :=
  run_deadline_fixed_300_seconds.2.2.2.1 299 (by decide)

theorem updateFirst_map_id (p : Iteration → Bool) (f : Iteration → Iteration)
    (hf : ∀ a, (f a).id = a.id) :
    ∀ l : List Iteration, (updateFirst p f l).map Iteration.id = l.map Iteration.id := by
  intro l
  induction l with
  | nil => rfl
  | cons a as ih =>
    simp only [updateFirst]
    split
    · simp [hf a]
    · simp [ih]

theorem find?_none_not_mem_ids (l : List Iteration) (i : Nat)
    (h : l.find? (fun it => it.id == i) = none) : i ∉ l.map Iteration.id := by
  rw [List.find?_eq_none] at h
  simp only [List.mem_map]
  rintro ⟨it, hmem, hid⟩
  have hx := h it hmem
  simp [hid] at hx

theorem find?_some_mem_ids (l : List Iteration) (i : Nat) (it : Iteration)
    (h : l.find? (fun it => it.id == i) = some it) : i ∈ l.map Iteration.id := by
  have hmem := List.mem_of_find?_eq_some h
  have hp := List.find?_some h
  simp only [beq_iff_eq] at hp
  exact List.mem_map.2 ⟨it, hmem, hp⟩

theorem dedupKeepFirst_congr :
    ∀ (l s1 s2 : List Nat), (∀ x, x ∈ s1 ↔ x ∈ s2) →
      dedupKeepFirst s1 l = dedupKeepFirst s2 l := by
  intro l
  induction l with
  | nil => intro _ _ _; rfl
  | cons i is ih =>
    intro s1 s2 hs
    simp only [dedupKeepFirst]
    by_cases h1 : i ∈ s1
    · rw [if_pos h1, if_pos ((hs i).1 h1)]
      exact ih s1 s2 hs
    · rw [if_neg h1, if_neg (fun h2 => h1 ((hs i).2 h2))]
      rw [ih (i :: s1) (i :: s2) ?_]
      intro x
      simp [List.mem_cons, hs x]

theorem dedupKeepFirst_nodup_avoid :
    ∀ (l seen : List Nat), (dedupKeepFirst seen l).Nodup
      ∧ ∀ x ∈ dedupKeepFirst seen l, x ∉ seen := by
  intro l
  induction l with
  | nil =>
    intro seen
    refine ⟨List.nodup_nil, ?_⟩
    intro x hx
    simp [dedupKeepFirst] at hx
  | cons i is ih =>
    intro seen
    simp only [dedupKeepFirst]
    by_cases h : i ∈ seen
    · rw [if_pos h]
      exact ih seen
    · rw [if_neg h]
      obtain ⟨hnd, havoid⟩ := ih (i :: seen)
      refine ⟨List.nodup_cons.2 ⟨fun hmem => ?_, hnd⟩, ?_⟩
      · exact havoid i hmem (List.mem_cons_self i seen)
      · intro x hx
        rcases List.mem_cons.1 hx with rfl | hx2
        · exact h
        · exact fun hxs => havoid x hx2 (List.mem_cons_of_mem i hxs)

theorem processEvents_ids (apiUrl : String) :
    ∀ (events : List SSEEvent) (s : WorkflowState),
      (processEvents apiUrl s events).iterations.map Iteration.id
        = s.iterations.map Iteration.id
          ++ dedupKeepFirst (s.iterations.map Iteration.id) (iterationIndices events) := by
  intro events
  induction events with
  | nil =>
    intro s
    simp [processEvents, iterationIndices, dedupKeepFirst]
  | cons e es ih =>
    intro s
    have hstep : processEvents apiUrl s (e :: es)
        = processEvents apiUrl (handleSSEEvent apiUrl s e) es := rfl
    rw [hstep, ih (handleSSEEvent apiUrl s e)]
    cases e with
    | text_extraction a b c =>
      simp [handleSSEEvent, iterationIndices]
    | stream_end a =>
      simp [handleSSEEvent, iterationIndices]
    | workflow_error a b c =>
      simp [handleSSEEvent, iterationIndices]
    | workflow_complete a fin c d ts =>
      have hiter : (handleSSEEvent apiUrl s
            (SSEEvent.workflow_complete a fin c d ts)).iterations = s.iterations := by
        simp only [handleSSEEvent]
        split <;> rfl
      rw [hiter]
      simp [iterationIndices]
    | workflow_timeout total lastUrl ts =>
      have hiter : (handleSSEEvent apiUrl s
            (SSEEvent.workflow_timeout total lastUrl ts)).iterations = s.iterations := by
        simp only [handleSSEEvent]
        cases lastUrl with
        | none => rfl
        | some u =>
          simp only []
          split <;> rfl
      rw [hiter]
      simp [iterationIndices]
    | image_generated i url ts =>
      have hiter : (handleSSEEvent apiUrl s
            (SSEEvent.image_generated i url ts)).iterations.map Iteration.id
          = s.iterations.map Iteration.id := by
        simp only [handleSSEEvent]
        cases hf : s.iterations.find? (fun it => it.id == i) with
        | none => rfl
        | some it =>
          simp only []
          exact updateFirst_map_id (fun it => it.id == i)
            (fun it => { it with imageUrl := some (resolveImageUrl apiUrl url) })
            (fun a => rfl) s.iterations
      rw [hiter]
      simp [iterationIndices]
    | iteration_start i p ts =>
      have hind : iterationIndices (SSEEvent.iteration_start i p ts :: es)
          = i :: iterationIndices es := rfl
      rw [hind]
      cases hf : s.iterations.find? (fun it => it.id == i) with
      | some it =>
        have hmem : i ∈ s.iterations.map Iteration.id := find?_some_mem_ids _ _ _ hf
        have hiter : (handleSSEEvent apiUrl s
              (SSEEvent.iteration_start i p ts)).iterations.map Iteration.id
            = s.iterations.map Iteration.id := by
          simp only [handleSSEEvent, hf]
          exact updateFirst_map_id (fun it => it.id == i)
            (fun it => if optTruthy it.prompt then it else { it with prompt := some p })
            (fun a => by dsimp only; split <;> rfl) s.iterations
        rw [hiter]
        simp only [dedupKeepFirst, if_pos hmem]
      | none =>
        have hmem : i ∉ s.iterations.map Iteration.id := find?_none_not_mem_ids _ _ hf
        have hiter : (handleSSEEvent apiUrl s
              (SSEEvent.iteration_start i p ts)).iterations.map Iteration.id
            = s.iterations.map Iteration.id ++ [i] := by
          simp [handleSSEEvent, hf]
        rw [hiter]
        simp only [dedupKeepFirst, if_neg hmem]
        rw [dedupKeepFirst_congr (iterationIndices es)
          (s.iterations.map Iteration.id ++ [i]) (i :: s.iterations.map Iteration.id)
          (by intro x; simp [List.mem_append, List.mem_cons, or_comm])]
        simp
    | analysis i ocr m msg ts =>
      have hind : iterationIndices (SSEEvent.analysis i ocr m msg ts :: es)
          = i :: iterationIndices es := rfl
      rw [hind]
      cases hf : s.iterations.find? (fun it => it.id == i) with
      | some it =>
        have hmem : i ∈ s.iterations.map Iteration.id := find?_some_mem_ids _ _ _ hf
        have hiter : (handleSSEEvent apiUrl s
              (SSEEvent.analysis i ocr m msg ts)).iterations.map Iteration.id
            = s.iterations.map Iteration.id := by
          simp only [handleSSEEvent, hf]
          exact updateFirst_map_id (fun it => it.id == i)
            (fun it =>
              { it with extractedText := some ocr, isMatch := some m,
                        feedback := some msg })
            (fun a => rfl) s.iterations
        rw [hiter]
        simp only [dedupKeepFirst, if_pos hmem]
      | none =>
        have hmem : i ∉ s.iterations.map Iteration.id := find?_none_not_mem_ids _ _ hf
        have hiter : (handleSSEEvent apiUrl s
              (SSEEvent.analysis i ocr m msg ts)).iterations.map Iteration.id
            = s.iterations.map Iteration.id ++ [i] := by
          simp [handleSSEEvent, hf]
        rw [hiter]
        simp only [dedupKeepFirst, if_neg hmem]
        rw [dedupKeepFirst_congr (iterationIndices es)
          (s.iterations.map Iteration.id ++ [i]) (i :: s.iterations.map Iteration.id)
          (by intro x; simp [List.mem_append, List.mem_cons, or_comm])]
        simp

/-- C5 (amended): for every processed event sequence the recorded iteration
ids are exactly the first occurrences, in arrival order, of the iteration
indices announced by iteration_start and analysis events, and therefore
contain at most one entry per index; the handler does not enforce that the
indices form the gap-free sequence 1..N (see the counterexample) — that
shape holds only when the stream announces its indices that way. -/
theorem recorded_iteration_ids_characterized :
    ∀ (apiUrl : String) (events : List SSEEvent),
      stateIterationIds (processEvents apiUrl startState events)
        = dedupKeepFirst [] (iterationIndices events)
      ∧ (stateIterationIds (processEvents apiUrl startState events)).Nodup := by
  intro apiUrl events
  have h := processEvents_ids apiUrl events startState
  have hstart : startState.iterations.map Iteration.id = [] := rfl
  rw [hstart] at h
  simp only [List.nil_append] at h
  refine ⟨h, ?_⟩
  rw [show stateIterationIds (processEvents apiUrl startState events)
      = dedupKeepFirst [] (iterationIndices events) from h]
  exact (dedupKeepFirst_nodup_avoid (iterationIndices events) []).1

/-- C5 counterexample: a stream whose single iteration_start announces
index 2 records the id list with entries that are not the gap-free 1-based
sequence over the recorded length. -/
theorem iteration_ids_not_one_based :
    stateIterationIds (processEvents "http://localhost:8000" startState
        [SSEEvent.iteration_start 2 "p" "t"]) = [2]
    ∧ stateIterationIds (processEvents "http://localhost:8000" startState
          [SSEEvent.iteration_start 2 "p" "t"])
        ≠ List.range' 1 (processEvents "http://localhost:8000" startState
            [SSEEvent.iteration_start 2 "p" "t"]).iterations.length := by
  decide

/-- C5 witness: the characterization at a concrete event list. -/
theorem recorded_iteration_ids_characterized_witness :
    stateIterationIds (processEvents "u" startState
        [SSEEvent.iteration_start 1 "p" "t"])
      = dedupKeepFirst [] (iterationIndices [SSEEvent.iteration_start 1 "p" "t"]) :=
  (recorded_iteration_ids_characterized "u" [SSEEvent.iteration_start 1 "p" "t"]).1

namespace ImageGenerationAPI

theorem splitNl_ne_nil : ∀ l : List Char, splitNl l ≠ [] := by
  intro l
  cases l with
  | nil => simp [splitNl]
  | cons c cs =>
    simp only [splitNl]
    split <;> simp

theorem splitNl_cons_nl (cs : List Char) : splitNl ('\n' :: cs) = [] :: splitNl cs := by
  simp [splitNl]

theorem splitNl_cons_other (c : Char) (cs : List Char) (hc : c ≠ '\n') :
    splitNl (c :: cs) = (c :: (splitNl cs).headD []) :: (splitNl cs).tail := by
  simp [splitNl, hc]

/-- Attaches a pending buffer to the front of the segments of the rest of
the stream. -/
def glue (p : List Char) (l : List (List Char)) : List (List Char) :=
  (p ++ l.headD []) :: l.tail

theorem getLastD_default_irrel : ∀ (l : List (List Char)) (d1 d2 : List Char),
    l ≠ [] → l.getLastD d1 = l.getLastD d2 := by
  intro l d1 d2 h
  cases l with
  | nil => exact absurd rfl h
  | cons a as => rw [List.getLastD_cons, List.getLastD_cons]

theorem dropLast_cons_ne_nil : ∀ (a : List Char) (l : List (List Char)),
    l ≠ [] → (a :: l).dropLast = a :: l.dropLast := by
  intro a l h
  cases l with
  | nil => exact absurd rfl h
  | cons b bs => rfl

theorem dropLast_append_right : ∀ (a b : List (List Char)), b ≠ [] →
    (a ++ b).dropLast = a ++ b.dropLast := by
  intro a
  induction a with
  | nil => intro b h; rfl
  | cons x xs ih =>
    intro b h
    rw [List.cons_append, dropLast_cons_ne_nil x (xs ++ b)
        (fun hh => h (List.append_eq_nil.1 hh).2), ih b h, List.cons_append]

theorem splitNl_append :
    ∀ a b : List Char, splitNl (a ++ b)
      = (splitNl a).dropLast ++ glue ((splitNl a).getLastD []) (splitNl b) := by
  intro a
  induction a with
  | nil =>
    intro b
    cases hb : splitNl b with
    | nil => exact absurd hb (splitNl_ne_nil b)
    | cons q qs =>
      rw [List.nil_append, hb]
      simp [splitNl, glue]
  | cons c cs ih =>
    intro b
    by_cases hc : c = '\n'
    · subst hc
      rw [List.cons_append, splitNl_cons_nl, splitNl_cons_nl, ih b,
          dropLast_cons_ne_nil _ _ (splitNl_ne_nil cs), List.getLastD_cons,
          List.cons_append]
    · rw [List.cons_append, splitNl_cons_other c (cs ++ b) hc,
          splitNl_cons_other c cs hc, ih b]
      cases hR : splitNl cs with
      | nil => exact absurd hR (splitNl_ne_nil cs)
      | cons q qs =>
        cases qs with
        | nil => simp [glue]
        | cons r rs =>
          simp only [List.headD_cons, List.tail_cons, List.getLastD_cons,
            dropLast_cons_ne_nil q (r :: rs) (by simp),
            dropLast_cons_ne_nil (c :: q) (r :: rs) (by simp),
            List.cons_append]

theorem nl_not_mem_lastPart : ∀ l : List Char, '\n' ∉ (splitNl l).getLastD [] := by
  intro l
  induction l with
  | nil => simp [splitNl]
  | cons c cs ih =>
    by_cases hc : c = '\n'
    · subst hc
      rw [splitNl_cons_nl, List.getLastD_cons]
      exact ih
    · rw [splitNl_cons_other c cs hc]
      cases hR : splitNl cs with
      | nil => exact absurd hR (splitNl_ne_nil cs)
      | cons q qs =>
        rw [hR] at ih
        cases qs with
        | nil =>
          simp only [List.headD_cons, List.tail_cons, List.getLastD_cons,
            List.getLastD_nil] at ih ⊢
          simp only [List.mem_cons, not_or]
          exact ⟨fun hh => hc hh.symm, ih⟩
        | cons r rs =>
          simp only [List.headD_cons, List.tail_cons, List.getLastD_cons] at ih ⊢
          exact ih

theorem splitNl_no_nl (l : List Char) (h : '\n' ∉ l) : splitNl l = [l] := by
  induction l with
  | nil => rfl
  | cons c cs ih =>
    simp only [List.mem_cons, not_or] at h
    obtain ⟨h1, h2⟩ := h
    rw [splitNl_cons_other c cs (fun he => h1 he.symm), ih h2]
    rfl

theorem splitNl_no_nl_append (p J : List Char) (hp : '\n' ∉ p) :
    splitNl (p ++ J) = glue p (splitNl J) := by
  rw [splitNl_append p J, splitNl_no_nl p hp]
  rfl

theorem feedChunk_foldl_spec {α : Type} (parse : List Char → Option α) :
    ∀ (chunks : List (List Char)) (buffer : List Char) (out : List α),
      '\n' ∉ buffer →
      (chunks.foldl (feedChunk parse) (buffer, out)).2
        = out ++ (splitNl (buffer ++ chunks.flatten)).dropLast.filterMap
            (handleLine parse) := by
  intro chunks
  induction chunks with
  | nil =>
    intro buffer out hb
    rw [List.foldl_nil]
    simp [splitNl_no_nl buffer hb]
  | cons c rest ih =>
    intro buffer out hb
    rw [List.foldl_cons]
    have hB : '\n' ∉ (splitNl (buffer ++ c)).getLastD [] := nl_not_mem_lastPart _
    rw [show feedChunk parse (buffer, out) c
        = ((splitNl (buffer ++ c)).getLastD [],
           out ++ (splitNl (buffer ++ c)).dropLast.filterMap (handleLine parse))
      from rfl]
    rw [ih _ _ hB]
    rw [List.flatten_cons, ← List.append_assoc buffer c rest.flatten,
        splitNl_append (buffer ++ c) rest.flatten,
        ← splitNl_no_nl_append ((splitNl (buffer ++ c)).getLastD []) rest.flatten hB,
        dropLast_append_right _ _ (splitNl_ne_nil _),
        List.filterMap_append, List.append_assoc]

end ImageGenerationAPI

/-- C9: the generateImage parser yields exactly the successfully parsed
payloads of the complete lines of the whole stream that begin with the
data marker, in stream order: lines whose payload fails to parse and lines
without the marker contribute nothing, and chunk boundaries are invisible
because partial lines are buffered until their remainder arrives. -/
theorem generateImage_yields_parsed_data_lines :
    ∀ {α : Type} (parse : List Char → Option α) (chunks : List (List Char)),
      ImageGenerationAPI.generateImage parse chunks
        = ImageGenerationAPI.specDataEvents parse chunks.flatten := by
  intro α parse chunks
  unfold ImageGenerationAPI.generateImage ImageGenerationAPI.specDataEvents
  simpa using ImageGenerationAPI.feedChunk_foldl_spec parse chunks [] [] (by simp)

/-- C9 witness: the characterization at a concrete chunked stream that
splits a data line across a chunk boundary. -/
theorem generateImage_yields_parsed_data_lines_witness :
    ImageGenerationAPI.generateImage (fun l => some l)
        ["data: a".toList, "b\nrest".toList]
      = ImageGenerationAPI.specDataEvents (fun l => some l)
          (List.flatten ["data: a".toList, "b\nrest".toList]) :=
  generateImage_yields_parsed_data_lines (fun l => some l)
    ["data: a".toList, "b\nrest".toList]

end CrewaiHack
